import Mathlib

/-!
Verification of the `rustversion-detect` crate.

This file gives a shallow embedding of the crate's core:
  * `src/date.rs`     : the `Date` type with `is_since` / `is_before` and the
    validating constructor `Date::new`;
  * `src/version.rs`  : `StableVersionSpec` (with `FromStr` and `Display`),
    `Channel`, and `RustVersion` with the `is_since_stable` /
    `is_before_stable` / `is_since_nightly` / `is_before_nightly` family;
  * `build/rustc.rs`  : the `rustc --version` output parser (`parse` and
    `parse_words`).

Strings are modelled as `List Char`; the Rust standard-library operations the
code relies on (`str::lines`, `str::trim`, `str::split`, `u32::from_str`,
...) are embedded below following their documented semantics.  The potential
panic site in `parse_words` (the slice `date[..date.len() - 1]`) is modelled
with `Except Unit`, `Except.error ()` standing for a panic.
-/

/-! ## String model: Rust standard-library operations on `List Char` -/

/-- ASCII digit test, as used by `u32::from_str` (`char::to_digit(10)` only
accepts the ASCII digits `'0'..='9'`). -/
def isDigitChar (c : Char) : Bool :=
  decide (48 ≤ c.toNat) && decide (c.toNat ≤ 57)

/-- The Unicode `White_Space` property, as used by Rust's `str::trim`
(`char::is_whitespace`). -/
def isRustWhitespace (c : Char) : Bool :=
  decide (9 ≤ c.toNat ∧ c.toNat ≤ 13) || decide (c.toNat = 32) ||
  decide (c.toNat = 0x85) || decide (c.toNat = 0xA0) ||
  decide (c.toNat = 0x1680) ||
  decide (0x2000 ≤ c.toNat ∧ c.toNat ≤ 0x200A) ||
  decide (c.toNat = 0x2028) || decide (c.toNat = 0x2029) ||
  decide (c.toNat = 0x202F) || decide (c.toNat = 0x205F) ||
  decide (c.toNat = 0x3000)

/-- Rust `str::trim`: drop leading and trailing whitespace. -/
def rustTrim (s : List Char) : List Char :=
  ((s.dropWhile isRustWhitespace).reverse.dropWhile isRustWhitespace).reverse

/-- Prepend a character to the first piece of a split (helper shared by
`splitChar` and `rustLines`). -/
def consHead (c : Char) : List (List Char) → List (List Char)
  | [] => [[c]]
  | l :: ls => (c :: l) :: ls

/-- Rust `str::split(sep)` with a character separator: yields the pieces
between separators, including empty pieces; always at least one piece. -/
def splitChar (sep : Char) : List Char → List (List Char)
  | [] => [[]]
  | c :: rest =>
    if c = sep then [] :: splitChar sep rest
    else consHead c (splitChar sep rest)

/-- Recover a `'\n'`-terminated line from its reversed accumulation,
stripping one trailing `'\r'` (the `"\r\n"` handling of `str::lines`). -/
def stripCRrev (cur : List Char) : List Char :=
  match cur with
  | '\r' :: cur2 => cur2.reverse
  | _ => cur.reverse

/-- Worker for `rustLines`: `cur` is the reversed current line. -/
def rustLinesAux (cur : List Char) : List Char → List (List Char)
  | [] => if cur = [] then [] else [cur.reverse]
  | c :: rest =>
    if c = '\n' then stripCRrev cur :: rustLinesAux [] rest
    else rustLinesAux (c :: cur) rest

/-- Rust `str::lines`: split at `'\n'`, treating `"\r\n"` as a single line
terminator (a `'\r'` is stripped only when a `'\n'` follows); the final line
ending is optional, and the empty string has no lines. -/
def rustLines (s : List Char) : List (List Char) :=
  rustLinesAux [] s

/-- Strip a single leading `'+'` (the sign handling of `u32::from_str` for
unsigned integer types; a leading `'-'` is not accepted and is left in place
to fail the digit test). -/
def stripPlus : List Char → List Char
  | [] => []
  | c :: rest => if c = '+' then rest else c :: rest

/-- Decimal value of a digit string (accumulator form, as in
`from_str_radix`). -/
def digitsVal (l : List Char) : Nat :=
  l.foldl (fun a c => a * 10 + (c.toNat - 48)) 0

/-- Rust `FromStr` for an unsigned integer type with `bound = 2^width`:
an optional leading `'+'`, then one or more ASCII digits, rejecting the empty
string and values that overflow the type. -/
def parseUInt (bound : Nat) (s : List Char) : Option Nat :=
  let ds := stripPlus s
  if ds = [] then none
  else if ds.all isDigitChar then
    if digitsVal ds < bound then some (digitsVal ds) else none
  else none

/-- `u8::from_str`. -/
def parseU8 (s : List Char) : Option Nat := parseUInt 256 s

/-- `u16::from_str`. -/
def parseU16 (s : List Char) : Option Nat := parseUInt 65536 s

/-- `u32::from_str`. -/
def parseU32 (s : List Char) : Option Nat := parseUInt 4294967296 s

/-- Decimal rendering of a natural number (Rust `Display` for unsigned
integers). -/
def digitChar (d : Nat) : Char :=
  match d with
  | 0 => '0' | 1 => '1' | 2 => '2' | 3 => '3' | 4 => '4'
  | 5 => '5' | 6 => '6' | 7 => '7' | 8 => '8' | _ => '9'

/-- Decimal digit string of `n`, most significant digit first. -/
def natStr (n : Nat) : List Char :=
  if n < 10 then [digitChar n]
  else natStr (n / 10) ++ [digitChar (n % 10)]

/-! ## `src/date.rs` -/

/-- The `Date` struct of `src/date.rs` (fields `year: u16`, `month: u8`,
`day: u8`, modelled as `Nat`). -/
structure Date where
  year : Nat
  month : Nat
  day : Nat
  deriving DecidableEq, Repr

/-- `Date::is_since` (`src/date.rs`): `self.year > start.year || (self.year
== start.year && (self.month > start.month || (self.month == start.month &&
self.day >= start.day)))`. -/
def Date.is_since (d start : Date) : Bool :=
  decide (start.year < d.year) ||
    (d.year == start.year &&
      (decide (start.month < d.month) ||
        (d.month == start.month && decide (start.day ≤ d.day))))

/-- `Date::is_before` (`src/date.rs`): `!self.is_since(end)`. -/
def Date.is_before (d e : Date) : Bool :=
  !(d.is_since e)

/-- `Date::new` with validation enabled (`cfg(has_const_panic)`): the three
`assert!`s of `src/date.rs`, a panic modelled as `Except.error` carrying the
panic message. -/
def Date.new_checked (year month day : Nat) : Except String Date :=
  if ¬ (1 ≤ year) then Except.error "Invalid year"
  else if ¬ (1 ≤ month ∧ month ≤ 12) then Except.error "Invalid month"
  else if ¬ (1 ≤ day ∧ day ≤ 31) then Except.error "Invalid day of month"
  else Except.ok ⟨year, month, day⟩

/-- `Date::new` with validation compiled out (no `has_const_panic`): plain
field assignment. -/
def Date.new_unchecked (year month day : Nat) : Date :=
  ⟨year, month, day⟩

/-! ## `src/version.rs` -/

/-- The `Channel` enum of `src/version.rs`. -/
inductive Channel where
  | Stable : Channel
  | Beta : Channel
  | Nightly : Date → Channel
  | Dev : Channel
  deriving DecidableEq, Repr

/-- The `StableVersionSpec` struct of `src/version.rs` (fields `u32`,
modelled as `Nat`; `patch = none` matches any patch version). -/
structure StableVersionSpec where
  major : Nat
  minor : Nat
  patch : Option Nat
  deriving DecidableEq, Repr

/-- The `StableVersionParseError` enum of `src/version.rs` (the
`ParseIntError` payload of `InvalidNumber` is dropped). -/
inductive StableVersionParseError where
  | InvalidNumber : StableVersionParseError
  | BadNumberParts : StableVersionParseError
  | InvalidMajorVersion : StableVersionParseError
  deriving DecidableEq, Repr

/-- Iterator consumption of `<StableVersionSpec as FromStr>::from_str`
(`src/version.rs`), acting on the pieces produced by `s.split('.')`:
parse major, parse minor (`BadNumberParts` if absent), optionally parse
patch, reject a fourth piece, then require `major == 1`. -/
def StableVersionSpec.fromParts (parts : List (List Char)) :
    Except StableVersionParseError StableVersionSpec :=
  match parts with
  | [] => Except.error StableVersionParseError.BadNumberParts
  | mj :: rest =>
    match parseU32 mj with
    | none => Except.error StableVersionParseError.InvalidNumber
    | some major =>
      match rest with
      | [] => Except.error StableVersionParseError.BadNumberParts
      | mn :: rest2 =>
        match parseU32 mn with
        | none => Except.error StableVersionParseError.InvalidNumber
        | some minor =>
          match rest2 with
          | [] =>
            if major ≠ 1 then
              Except.error StableVersionParseError.InvalidMajorVersion
            else Except.ok ⟨major, minor, none⟩
          | p :: rest3 =>
            match parseU32 p with
            | none => Except.error StableVersionParseError.InvalidNumber
            | some patch =>
              match rest3 with
              | _ :: _ => Except.error StableVersionParseError.BadNumberParts
              | [] =>
                if major ≠ 1 then
                  Except.error StableVersionParseError.InvalidMajorVersion
                else Except.ok ⟨major, minor, some patch⟩

/-- `<StableVersionSpec as FromStr>::from_str` (`src/version.rs`): split on
`'.'` and consume the pieces. -/
def StableVersionSpec.from_str (s : List Char) :
    Except StableVersionParseError StableVersionSpec :=
  StableVersionSpec.fromParts (splitChar '.' s)

/-- `<StableVersionSpec as Display>::fmt` (`src/version.rs`):
`"{major}.{minor}"` plus `".{patch}"` when the patch is present. -/
def StableVersionSpec.display (v : StableVersionSpec) : List Char :=
  natStr v.major ++ '.' :: natStr v.minor ++
    (match v.patch with
     | none => []
     | some p => '.' :: natStr p)

/-- The `RustVersion` struct of `src/version.rs` (fields `u32`, modelled as
`Nat`). -/
structure RustVersion where
  major : Nat
  minor : Nat
  patch : Nat
  channel : Channel
  deriving DecidableEq, Repr

/-- `RustVersion::is_since_stable` (`src/version.rs`). -/
def RustVersion.is_since_stable (v : RustVersion) (spec : StableVersionSpec) :
    Bool :=
  decide (spec.major < v.major) ||
    (v.major == spec.major &&
      (decide (spec.minor < v.minor) ||
        (v.minor == spec.minor &&
          (match spec.patch with
           | none => true
           | some patch_spec => decide (patch_spec ≤ v.patch)))))

/-- `RustVersion::is_before_stable` (`src/version.rs`):
`!self.is_since_stable(spec)`. -/
def RustVersion.is_before_stable (v : RustVersion)
    (spec : StableVersionSpec) : Bool :=
  !(v.is_since_stable spec)

/-- `RustVersion::is_since_nightly` (`src/version.rs`). -/
def RustVersion.is_since_nightly (v : RustVersion) (start : Date) : Bool :=
  match v.channel with
  | Channel.Nightly date => date.is_since start
  | Channel.Stable => false
  | Channel.Beta => false
  | Channel.Dev => true

/-- `RustVersion::is_before_nightly` (`src/version.rs`): note that the
`Stable | Beta` and `Dev` arms return the same values as in
`is_since_nightly`. -/
def RustVersion.is_before_nightly (v : RustVersion) (start : Date) : Bool :=
  match v.channel with
  | Channel.Nightly date => date.is_before start
  | Channel.Stable => false
  | Channel.Beta => false
  | Channel.Dev => true

/-! ## `build/rustc.rs` -/

namespace Rustc

/-- The `Date` struct of `build/rustc.rs` (fields `year: u16`, `month: u8`,
`day: u8`). -/
structure Date where
  year : Nat
  month : Nat
  day : Nat
  deriving DecidableEq, Repr

/-- The `Channel` enum of `build/rustc.rs`. -/
inductive Channel where
  | Stable : Channel
  | Beta : Channel
  | Nightly : Date → Channel
  | Dev : Channel
  deriving DecidableEq, Repr

/-- The `Version` struct of `build/rustc.rs` (fields `u16`). -/
structure Version where
  major : Nat
  minor : Nat
  patch : Nat
  channel : Channel
  deriving DecidableEq, Repr

/-- The `ParseResult` enum of `build/rustc.rs`. -/
inductive ParseResult where
  | Success : Version → ParseResult
  | OopsClippy : ParseResult
  | Unrecognized : ParseResult
  deriving DecidableEq, Repr

/-- The slice `date[..date.len() - 1]` of `build/rustc.rs`: panics
(`Except.error ()`) when `date` is empty (index underflow / out of bounds),
otherwise drops the final character. -/
def sliceDropLast (s : List Char) : Except Unit (List Char) :=
  match s with
  | [] => Except.error ()
  | _ :: _ => Except.ok s.dropLast

/-- The date-piece consumption inside `parse_words`: `date.split('-')`,
parse `year: u16`, `month: u8`, `day: u8`, and require that no fourth piece
exists. -/
def parseDateParts (parts : List (List Char)) : Option Date :=
  match parts with
  | [] => none
  | y :: rest =>
    match parseU16 y with
    | none => none
    | some year =>
      match rest with
      | [] => none
      | m :: rest2 =>
        match parseU8 m with
        | none => none
        | some month =>
          match rest2 with
          | [] => none
          | d :: rest3 =>
            match parseU8 d with
            | none => none
            | some day =>
              match rest3 with
              | [] => some ⟨year, month, day⟩
              | _ :: _ => none

/-- The `Some("nightly")` arm of `parse_words` (`build/rustc.rs`), acting on
the remaining whitespace-separated words.  `Except.ok none` is `return
None` (parse failure), `Except.error ()` is a panic of the slice. -/
def nightlyTail (ws : List (List Char)) : Except Unit (Option Channel) :=
  match ws with
  | [] => Except.ok (some Channel.Dev)
  | hash :: ws2 =>
    if List.isPrefixOf ['('] hash then
      match ws2 with
      | [] =>
        if hash.getLast? = some ')' then Except.ok (some Channel.Dev)
        else Except.ok none
      | date :: _ =>
        if date.getLast? = some ')' then
          match sliceDropLast date with
          | Except.error () => Except.error ()
          | Except.ok body =>
            match parseDateParts (splitChar '-' body) with
            | some d => Except.ok (some (Channel.Nightly d))
            | none => Except.ok none
        else Except.ok none
    else Except.ok none

/-- `parse_words` (`build/rustc.rs`): consume the version word, split it on
`'-'` (taking the first piece as the version and the second, if any, as the
channel), split the version on `'.'` for `major.minor[.patch]` (`patch`
defaulting to the string `"0"`), then interpret the channel. -/
def parse_words (ws : List (List Char)) : Except Unit (Option Version) :=
  match ws with
  | [] => Except.ok none
  | tok :: ws1 =>
    match splitChar '-' tok with
    | [] => Except.ok none
    | version :: chanRest =>
      match splitChar '.' version with
      | [] => Except.ok none
      | d1 :: ds =>
        match parseU16 d1 with
        | none => Except.ok none
        | some major =>
          match ds with
          | [] => Except.ok none
          | d2 :: ds2 =>
            match parseU16 d2 with
            | none => Except.ok none
            | some minor =>
              match parseU16 (ds2.headD ['0']) with
              | none => Except.ok none
              | some patch =>
                match chanRest.head? with
                | none =>
                  Except.ok (some ⟨major, minor, patch, Channel.Stable⟩)
                | some ch =>
                  if ch = "dev".toList then
                    Except.ok (some ⟨major, minor, patch, Channel.Dev⟩)
                  else if List.isPrefixOf "beta".toList ch then
                    Except.ok (some ⟨major, minor, patch, Channel.Beta⟩)
                  else if ch = "nightly".toList then
                    match nightlyTail ws1 with
                    | Except.error () => Except.error ()
                    | Except.ok none => Except.ok none
                    | Except.ok (some channel) =>
                      Except.ok (some ⟨major, minor, patch, channel⟩)
                  else Except.ok none

/-- `parse` (`build/rustc.rs`): take `string.lines().last().unwrap_or(string)`,
trim it, split it on `' '`, require the first word to be `"rustc"` (a word
starting with `"clippy"` giving `OopsClippy`, anything else
`Unrecognized`), and hand the remaining words to `parse_words`. -/
def parse (s : List Char) : Except Unit ParseResult :=
  match splitChar ' ' (rustTrim (((rustLines s).getLast?).getD s)) with
  | [] => Except.ok ParseResult.Unrecognized
  | w :: rest =>
    if w = "rustc".toList then
      match parse_words rest with
      | Except.error () => Except.error ()
      | Except.ok (some v) => Except.ok (ParseResult.Success v)
      | Except.ok none => Except.ok ParseResult.Unrecognized
    else if List.isPrefixOf "clippy".toList w then
      Except.ok ParseResult.OopsClippy
    else Except.ok ParseResult.Unrecognized

end Rustc

/-! ## Theorems -/

/-- Claim C1: for every `RustVersion` and every `Date d`, a `Nightly(nd)`
version has `is_since_nightly d = nd.is_since d` and `is_before_nightly d =
nd.is_before d`; a `Stable` or `Beta` version has both predicates `false`;
a `Dev` version has both predicates `true` (so `is_before_nightly` is the
per-branch variant, not the boolean negation of `is_since_nightly`). -/
theorem claim_c1_nightly_comparisons :
    ∀ (mj mn pt : Nat) (nd d : Date),
      (RustVersion.mk mj mn pt (Channel.Nightly nd)).is_since_nightly d
          = nd.is_since d
      ∧ (RustVersion.mk mj mn pt (Channel.Nightly nd)).is_before_nightly d
          = nd.is_before d
      ∧ (RustVersion.mk mj mn pt Channel.Stable).is_since_nightly d = false
      ∧ (RustVersion.mk mj mn pt Channel.Stable).is_before_nightly d = false
      ∧ (RustVersion.mk mj mn pt Channel.Beta).is_since_nightly d = false
      ∧ (RustVersion.mk mj mn pt Channel.Beta).is_before_nightly d = false
      ∧ (RustVersion.mk mj mn pt Channel.Dev).is_since_nightly d = true
      ∧ (RustVersion.mk mj mn pt Channel.Dev).is_before_nightly d = true := by
  intro mj mn pt nd d
  exact ⟨rfl, rfl, rfl, rfl, rfl, rfl, rfl, rfl⟩

/-- Claim C2: `is_since_stable` holds exactly on the lexicographic condition
over `(major, minor, patch)` with an absent spec patch matching anything, it
does not depend on the channel, and `is_before_stable` is its boolean
negation. -/
theorem claim_c2_stable_comparison :
    ∀ (v : RustVersion) (s : StableVersionSpec),
      (v.is_since_stable s = true ↔
        s.major < v.major ∨ (v.major = s.major ∧
          (s.minor < v.minor ∨ (v.minor = s.minor ∧
            (s.patch = none ∨ ∃ p, s.patch = some p ∧ p ≤ v.patch)))))
      ∧ (∀ c : Channel,
          (RustVersion.mk v.major v.minor v.patch c).is_since_stable s
            = v.is_since_stable s)
      ∧ v.is_before_stable s = !(v.is_since_stable s) := by
  intro v s
  refine ⟨?_, fun c => rfl, rfl⟩
  rcases hsp : s.patch with _ | p <;>
    simp [RustVersion.is_since_stable, hsp] <;> omega

/-- Claim C8: `Date.is_since` is the non-strict lexicographic order `≥` on
`(year, month, day)`, `Date.is_before` is its boolean negation, and on equal
dates `is_since` holds while `is_before` does not. -/
theorem claim_c8_date_order :
    ∀ a b : Date,
      (a.is_since b = true ↔
        Prod.Lex (· < ·) (Prod.Lex (· < ·) (· ≤ ·))
          (b.year, (b.month, b.day)) (a.year, (a.month, a.day)))
      ∧ a.is_before b = !(a.is_since b)
      ∧ a.is_since a = true
      ∧ a.is_before a = false := by
  intro a b
  refine ⟨?_, rfl, ?_, ?_⟩
  · simp [Date.is_since, Prod.lex_def]
    omega
  · simp [Date.is_since]
  · simp [Date.is_before, Date.is_since]

/-- Claim C9: with validation enabled, `Date::new` panics with the
field-named message exactly when the corresponding field is out of range
(year checked first, then month, then day) and otherwise returns the fields
unchanged; with validation disabled it always returns the fields
unchanged. -/
theorem claim_c9_date_new_validation :
    ∀ y m d : Nat,
      (Date.new_checked y m d = Except.ok (Date.mk y m d) ↔
        (1 ≤ y ∧ 1 ≤ m ∧ m ≤ 12 ∧ 1 ≤ d ∧ d ≤ 31))
      ∧ (Date.new_checked y m d = Except.error "Invalid year" ↔ y = 0)
      ∧ (Date.new_checked y m d = Except.error "Invalid month" ↔
          (1 ≤ y ∧ (m = 0 ∨ 12 < m)))
      ∧ (Date.new_checked y m d = Except.error "Invalid day of month" ↔
          (1 ≤ y ∧ 1 ≤ m ∧ m ≤ 12 ∧ (d = 0 ∨ 31 < d)))
      ∧ Date.new_unchecked y m d = Date.mk y m d := by
  intro y m d
  unfold Date.new_checked Date.new_unchecked
  refine ⟨?_, ?_, ?_, ?_, rfl⟩ <;>
    split_ifs with h1 h2 h3 <;> simp_all <;> omega

theorem consHead_ne_nil (c : Char) (ls : List (List Char)) :
    consHead c ls ≠ [] := by
  cases ls <;> simp [consHead]

theorem splitChar_ne_nil (sep : Char) (s : List Char) :
    splitChar sep s ≠ [] := by
  induction s with
  | nil => simp [splitChar]
  | cons c rest ih =>
    simp only [splitChar]
    split
    · simp
    · exact consHead_ne_nil _ _

/-- Full outcome characterization of `StableVersionSpec.fromParts` on a
non-empty piece list, reflecting the parse order of the `FromStr` impl. -/
theorem svp_fromParts_characterization (parts : List (List Char))
    (hne : parts ≠ []) :
    ((∃ v, StableVersionSpec.fromParts parts = Except.ok v) ↔
      (2 ≤ parts.length ∧ parts.length ≤ 3 ∧
        (∀ p ∈ parts, (parseU32 p).isSome) ∧
        parseU32 parts.headI = some 1))
    ∧ (StableVersionSpec.fromParts parts
          = Except.error StableVersionParseError.BadNumberParts ↔
        ((parseU32 parts.headI).isSome ∧
          (parts.length = 1 ∨
            (4 ≤ parts.length ∧ (parseU32 (parts.getD 1 [])).isSome ∧
              (parseU32 (parts.getD 2 [])).isSome))))
    ∧ (StableVersionSpec.fromParts parts
          = Except.error StableVersionParseError.InvalidMajorVersion ↔
        (2 ≤ parts.length ∧ parts.length ≤ 3 ∧
          (∀ p ∈ parts, (parseU32 p).isSome) ∧
          parseU32 parts.headI ≠ some 1))
    ∧ (StableVersionSpec.fromParts parts
          = Except.error StableVersionParseError.InvalidNumber ↔
        (parseU32 parts.headI = none ∨
          (2 ≤ parts.length ∧ (parseU32 parts.headI).isSome ∧
            parseU32 (parts.getD 1 []) = none) ∨
          (3 ≤ parts.length ∧ (parseU32 parts.headI).isSome ∧
            (parseU32 (parts.getD 1 [])).isSome ∧
            parseU32 (parts.getD 2 []) = none))) := by
  rcases parts with _ | ⟨a, _ | ⟨b, _ | ⟨c, _ | ⟨d, rest⟩⟩⟩⟩
  · exact absurd rfl hne
  · rcases h1 : parseU32 a with _ | va <;>
      simp [StableVersionSpec.fromParts, h1]
  · rcases h1 : parseU32 a with _ | va
    · simp [StableVersionSpec.fromParts, h1]
    · rcases h2 : parseU32 b with _ | vb
      · simp [StableVersionSpec.fromParts, h1, h2]
      · by_cases hva : va = 1 <;> simp_all [StableVersionSpec.fromParts]
  · rcases h1 : parseU32 a with _ | va
    · simp [StableVersionSpec.fromParts, h1]
    · rcases h2 : parseU32 b with _ | vb
      · simp [StableVersionSpec.fromParts, h1, h2]
      · rcases h3 : parseU32 c with _ | vc
        · simp [StableVersionSpec.fromParts, h1, h2, h3]
        · by_cases hva : va = 1 <;> simp_all [StableVersionSpec.fromParts]
  · rcases h1 : parseU32 a with _ | va
    · simp [StableVersionSpec.fromParts, h1]
    · rcases h2 : parseU32 b with _ | vb
      · simp [StableVersionSpec.fromParts, h1, h2]
      · rcases h3 : parseU32 c with _ | vc
        · simp [StableVersionSpec.fromParts, h1, h2, h3]
        · simp [StableVersionSpec.fromParts, h1, h2, h3]

/-- Claim C6 (amended): `StableVersionSpec` parsing returns `Ok` exactly when
there are 2 or 3 dot components, every component parses as a `u32`, and the
major component is 1; the error kind follows parse order, so
`BadNumberParts` occurs exactly for a parseable major with 1 or (with
parseable minor and patch) more than 3 components, `InvalidNumber` exactly
when the first unparseable component is reached before any count check other
than the missing-minor one, and `InvalidMajorVersion` exactly when
everything else succeeds but the major is not 1. -/
theorem claim_c6_spec_parse_outcomes :
    ∀ s : List Char,
      ((∃ v, StableVersionSpec.from_str s = Except.ok v) ↔
        (2 ≤ (splitChar '.' s).length ∧ (splitChar '.' s).length ≤ 3 ∧
          (∀ p ∈ splitChar '.' s, (parseU32 p).isSome) ∧
          parseU32 (splitChar '.' s).headI = some 1))
      ∧ (StableVersionSpec.from_str s
            = Except.error StableVersionParseError.BadNumberParts ↔
          ((parseU32 (splitChar '.' s).headI).isSome ∧
            ((splitChar '.' s).length = 1 ∨
              (4 ≤ (splitChar '.' s).length ∧
                (parseU32 ((splitChar '.' s).getD 1 [])).isSome ∧
                (parseU32 ((splitChar '.' s).getD 2 [])).isSome))))
      ∧ (StableVersionSpec.from_str s
            = Except.error StableVersionParseError.InvalidMajorVersion ↔
          (2 ≤ (splitChar '.' s).length ∧ (splitChar '.' s).length ≤ 3 ∧
            (∀ p ∈ splitChar '.' s, (parseU32 p).isSome) ∧
            parseU32 (splitChar '.' s).headI ≠ some 1))
      ∧ (StableVersionSpec.from_str s
            = Except.error StableVersionParseError.InvalidNumber ↔
          (parseU32 (splitChar '.' s).headI = none ∨
            (2 ≤ (splitChar '.' s).length ∧
              (parseU32 (splitChar '.' s).headI).isSome ∧
              parseU32 ((splitChar '.' s).getD 1 []) = none) ∨
            (3 ≤ (splitChar '.' s).length ∧
              (parseU32 (splitChar '.' s).headI).isSome ∧
              (parseU32 ((splitChar '.' s).getD 1 [])).isSome ∧
              parseU32 ((splitChar '.' s).getD 2 []) = none))) := by
  intro s
  have h := svp_fromParts_characterization (splitChar '.' s)
    (splitChar_ne_nil '.' s)
  simpa [StableVersionSpec.from_str] using h

/-- Claim C6 counterexample: the input `"x"` has a single dot component
(fewer than 2), yet parsing fails with `InvalidNumber` rather than the
`BadNumberParts` the claim requires for a component count below 2. -/
theorem claim_c6_counterexample :
    (splitChar '.' "x".toList).length = 1
    ∧ StableVersionSpec.from_str "x".toList
        = Except.error StableVersionParseError.InvalidNumber
    ∧ StableVersionSpec.from_str "x".toList
        ≠ Except.error StableVersionParseError.BadNumberParts := by
  refine ⟨rfl, rfl, fun h => ?_⟩
  exact absurd (Except.error.inj h) (by decide)

theorem isDigitChar_digitChar (d : Nat) : isDigitChar (digitChar d) = true := by
  rcases d with _|_|_|_|_|_|_|_|_|d <;> rfl

theorem digitChar_toNat (d : Nat) (h : d < 10) :
    (digitChar d).toNat = 48 + d := by
  interval_cases d <;> rfl

theorem digit_ne (c x : Char) (hc : isDigitChar c = true)
    (hx : isDigitChar x = false) : c ≠ x := by
  intro h
  rw [h, hx] at hc
  cases hc

theorem natStr_ne_nil (n : Nat) : natStr n ≠ [] := by
  rw [natStr]
  split <;> simp

theorem natStr_all_digit (n : Nat) :
    ∀ c ∈ natStr n, isDigitChar c = true := by
  induction n using natStr.induct with
  | case1 n h =>
    rw [natStr, if_pos h]
    simp [isDigitChar_digitChar]
  | case2 n h ih =>
    rw [natStr, if_neg h]
    intro c hc
    rcases List.mem_append.mp hc with h1 | h1
    · exact ih c h1
    · simp at h1
      rw [h1]
      exact isDigitChar_digitChar _

theorem not_mem_natStr (n : Nat) (x : Char) (hx : isDigitChar x = false) :
    x ∉ natStr n := by
  intro hmem
  exact digit_ne x x (natStr_all_digit n x hmem) hx rfl

theorem digitsVal_append_digit (l : List Char) (c : Char) :
    digitsVal (l ++ [c]) = 10 * digitsVal l + (c.toNat - 48) := by
  simp [digitsVal, List.foldl_append, Nat.mul_comm]

theorem digitsVal_natStr (n : Nat) : digitsVal (natStr n) = n := by
  induction n using natStr.induct with
  | case1 n h =>
    rw [natStr, if_pos h]
    simp [digitsVal, digitChar_toNat n h]
  | case2 n h ih =>
    rw [natStr, if_neg h, digitsVal_append_digit, ih,
      digitChar_toNat (n % 10) (Nat.mod_lt n (by norm_num))]
    omega

theorem stripPlus_natStr (n : Nat) : stripPlus (natStr n) = natStr n := by
  rcases hn : natStr n with _ | ⟨c, rest⟩
  · rfl
  · have hc : isDigitChar c = true := by
      apply natStr_all_digit n
      rw [hn]
      simp
    rw [stripPlus, if_neg]
    exact digit_ne c '+' hc (by rfl)

theorem parseUInt_natStr (bound n : Nat) (h : n < bound) :
    parseUInt bound (natStr n) = some n := by
  rw [parseUInt]
  simp only [stripPlus_natStr]
  rw [if_neg (natStr_ne_nil n)]
  rw [if_pos (List.all_eq_true.mpr (fun c hc => natStr_all_digit n c hc))]
  rw [digitsVal_natStr, if_pos h]

theorem splitChar_of_not_mem (sep : Char) (s : List Char) (h : sep ∉ s) :
    splitChar sep s = [s] := by
  induction s with
  | nil => rfl
  | cons c rest ih =>
    rw [splitChar, if_neg (by simp at h; exact fun hc => h.1 hc.symm),
      ih (by simp at h; exact h.2)]
    rfl

theorem splitChar_append_sep (sep : Char) (l1 l2 : List Char)
    (h : sep ∉ l1) :
    splitChar sep (l1 ++ sep :: l2) = l1 :: splitChar sep l2 := by
  induction l1 with
  | nil => simp [splitChar]
  | cons c rest ih =>
    simp only [List.mem_cons, not_or] at h
    rw [List.cons_append, splitChar, if_neg (fun hc => h.1 hc.symm),
      ih h.2, consHead]

/-- Claim C7: for every valid spec with major 1 (and `u32`-sized
components), parsing the display string returns the spec unchanged. -/
theorem claim_c7_display_roundtrip :
    ∀ (mn : Nat) (pt : Option Nat),
      mn < 4294967296 → pt.getD 0 < 4294967296 →
      StableVersionSpec.from_str
          (StableVersionSpec.display ⟨1, mn, pt⟩)
        = Except.ok ⟨1, mn, pt⟩ := by
  intro mn pt hmn hpt
  rcases pt with _ | p
  · have e : StableVersionSpec.display ⟨1, mn, none⟩
        = natStr 1 ++ '.' :: natStr mn := by
      simp [StableVersionSpec.display]
    rw [e, StableVersionSpec.from_str,
      splitChar_append_sep '.' _ _ (not_mem_natStr 1 '.' rfl),
      splitChar_of_not_mem '.' _ (not_mem_natStr mn '.' rfl),
      StableVersionSpec.fromParts]
    simp [parseUInt_natStr 4294967296 1 (by norm_num), parseU32,
      parseUInt_natStr 4294967296 mn hmn]
  · have e : StableVersionSpec.display ⟨1, mn, some p⟩
        = natStr 1 ++ '.' :: (natStr mn ++ '.' :: natStr p) := by
      simp [StableVersionSpec.display]
    rw [e, StableVersionSpec.from_str,
      splitChar_append_sep '.' _ _ (not_mem_natStr 1 '.' rfl),
      splitChar_append_sep '.' _ _ (not_mem_natStr mn '.' rfl),
      splitChar_of_not_mem '.' _ (not_mem_natStr p '.' rfl),
      StableVersionSpec.fromParts]
    simp only [Option.getD_some] at hpt
    simp [parseUInt_natStr 4294967296 1 (by norm_num), parseU32,
      parseUInt_natStr 4294967296 mn hmn,
      parseUInt_natStr 4294967296 p hpt]

/-- Witness for claim C7 at the spec `1.12.3`. -/
theorem claim_c7_display_roundtrip_witness :
    12 < 4294967296 ∧ (some 3 : Option Nat).getD 0 < 4294967296 ∧
      StableVersionSpec.from_str
          (StableVersionSpec.display ⟨1, 12, some 3⟩)
        = Except.ok ⟨1, 12, some 3⟩ :=
  ⟨by decide, by decide,
    claim_c7_display_roundtrip 12 (some 3) (by decide) (by decide)⟩

theorem rustLinesAux_ne_nil (cur t : List Char) (h : t ≠ [] ∨ cur ≠ []) :
    rustLinesAux cur t ≠ [] := by
  induction t generalizing cur with
  | nil =>
    rcases h with h | h
    · exact absurd rfl h
    · simp [rustLinesAux, h]
  | cons c rest ih =>
    simp only [rustLinesAux]
    split
    · simp
    · exact ih (c :: cur) (Or.inr (by simp))

theorem rustLines_ne_nil (t : List Char) (h : t ≠ []) : rustLines t ≠ [] :=
  rustLinesAux_ne_nil [] t (Or.inl h)

theorem rustLinesAux_append_nl (a t : List Char) :
    ∀ cur, rustLinesAux cur (a ++ '\n' :: t)
      = rustLinesAux cur (a ++ ['\n']) ++ rustLinesAux [] t := by
  induction a with
  | nil => intro cur; simp [rustLinesAux]
  | cons c a ih =>
    intro cur
    simp only [List.cons_append, rustLinesAux]
    split
    · rw [List.cons_append]
      exact congrArg _ (ih [])
    · exact ih (c :: cur)

theorem rustLines_append_nl (a t : List Char) :
    rustLines (a ++ '\n' :: t) = rustLines (a ++ ['\n']) ++ rustLines t :=
  rustLinesAux_append_nl a t []

theorem rustcNightlyTail_ok (ws : List (List Char)) :
    ∃ r, Rustc.nightlyTail ws = Except.ok r := by
  rcases ws with _ | ⟨hash, ws2⟩
  · exact ⟨_, rfl⟩
  · rcases ws2 with _ | ⟨date, ws3⟩
    · simp only [Rustc.nightlyTail]
      split
      · split <;> exact ⟨_, rfl⟩
      · exact ⟨_, rfl⟩
    · simp only [Rustc.nightlyTail]
      split
      · by_cases hd : date.getLast? = some ')'
        · rw [if_pos hd]
          rcases date with _ | ⟨c, date2⟩
          · simp at hd
          · simp only [Rustc.sliceDropLast]
            split <;> exact ⟨_, rfl⟩
        · rw [if_neg hd]
          exact ⟨_, rfl⟩
      · exact ⟨_, rfl⟩

theorem rustcParseWords_ok (ws : List (List Char)) :
    ∃ r, Rustc.parse_words ws = Except.ok r := by
  rcases ws with _ | ⟨tok, ws1⟩
  · exact ⟨_, rfl⟩
  · simp only [Rustc.parse_words]
    split
    · exact ⟨_, rfl⟩
    · split
      · exact ⟨_, rfl⟩
      · split
        · exact ⟨_, rfl⟩
        · split
          · exact ⟨_, rfl⟩
          · split
            · exact ⟨_, rfl⟩
            · split
              · exact ⟨_, rfl⟩
              · split
                · exact ⟨_, rfl⟩
                · split
                  · exact ⟨_, rfl⟩
                  · split
                    · exact ⟨_, rfl⟩
                    · split
                      · obtain ⟨r, hr⟩ := rustcNightlyTail_ok ws1
                        split
                        · rename_i heq
                          rw [hr] at heq
                          cases heq
                        · exact ⟨_, rfl⟩
                        · exact ⟨_, rfl⟩
                      · exact ⟨_, rfl⟩

theorem rustcParse_ok (s : List Char) :
    ∃ r, Rustc.parse s = Except.ok r := by
  simp only [Rustc.parse]
  split
  · exact ⟨_, rfl⟩
  · split
    · obtain ⟨r, hr⟩ := rustcParseWords_ok _
      split
      · rename_i heq
        rw [hr] at heq
        cases heq
      · exact ⟨_, rfl⟩
      · exact ⟨_, rfl⟩
    · split <;> exact ⟨_, rfl⟩

theorem rustcParse_drops_leading_lines (junk t : List Char) (h : t ≠ []) :
    Rustc.parse (junk ++ '\n' :: t) = Rustc.parse t := by
  have h2 : rustLines t ≠ [] := rustLines_ne_nil t h
  rcases hx : (rustLines t).getLast? with _ | lin
  · exact absurd (List.getLast?_eq_none_iff.mp hx) h2
  · simp only [Rustc.parse]
    rw [rustLines_append_nl junk t,
      List.getLast?_append_of_ne_nil _ h2, hx]
    simp only [Option.getD_some]

/-- Claim C10: on every input the version-string parser terminates without
panicking and returns exactly one of `Success`, `OopsClippy`,
`Unrecognized`; in particular the slice taken from the date token never goes
out of bounds, being guarded by the token ending in `')'`. -/
theorem claim_c10_parse_total :
    ∀ s : List Char,
      (∃ v, Rustc.parse s = Except.ok (Rustc.ParseResult.Success v))
      ∨ Rustc.parse s = Except.ok Rustc.ParseResult.OopsClippy
      ∨ Rustc.parse s = Except.ok Rustc.ParseResult.Unrecognized := by
  intro s
  obtain ⟨r, hr⟩ := rustcParse_ok s
  rcases r with v | _ | _
  · exact Or.inl ⟨v, hr⟩
  · exact Or.inr (Or.inl hr)
  · exact Or.inr (Or.inr hr)

/-- Claim C4 (amended): the parser operates on the last line produced by the
line iterator — which drops only the final empty segment created by a
trailing line terminator — after trimming whitespace; leading noise lines
are ignored (prepending any junk followed by a newline to a non-empty input
leaves the result unchanged); an input whose first line is clippy noise and
whose last line is a real rustc line parses directly to `Success` with no
wrong-tool outcome (the retry loop lives in the caller); a single line whose
first token starts with `"clippy"` yields `OopsClippy`. -/
theorem claim_c4_line_selection :
    (∀ junk t : List Char, t ≠ [] →
        Rustc.parse (junk ++ '\n' :: t) = Rustc.parse t)
    ∧ Rustc.parse "clippy 0.1.85 (x)\nrustc 1.81.0 (h 2024-09-04)\n".toList
        = Except.ok (Rustc.ParseResult.Success
            ⟨1, 81, 0, Rustc.Channel.Stable⟩)
    ∧ Rustc.parse "clippy 0.1.85 (x)\n".toList
        = Except.ok Rustc.ParseResult.OopsClippy :=
  ⟨rustcParse_drops_leading_lines, rfl, rfl⟩

/-- Witness for claim C4 as amended, at a concrete junk line and final
line. -/
theorem claim_c4_line_selection_witness :
    ("rustc 1.31.0".toList ≠ ([] : List Char))
    ∧ Rustc.parse ("noise".toList ++ '\n' :: "rustc 1.31.0".toList)
        = Rustc.parse "rustc 1.31.0".toList :=
  ⟨by decide,
    claim_c4_line_selection.1 "noise".toList "rustc 1.31.0".toList
      (by decide)⟩

/-- Claim C4 counterexample: the parser does not use the last non-empty
line.  `"rustc 1.31.0\n\n"` ends in a blank line, so the parser examines the
empty last line and reports `Unrecognized`, although the same rustc line
without the blank line parses successfully; moreover a clippy first line
followed by a rustc line parses directly to `Success` — the wrong-tool
outcome is never produced for that input. -/
theorem claim_c4_counterexample :
    Rustc.parse "rustc 1.31.0\n\n".toList
        = Except.ok Rustc.ParseResult.Unrecognized
    ∧ Rustc.parse "rustc 1.31.0\n".toList
        = Except.ok (Rustc.ParseResult.Success
            ⟨1, 31, 0, Rustc.Channel.Stable⟩)
    ∧ Rustc.parse "clippy 0.1.85 (...)\nrustc 1.81.0 (abc 2024-09-04)\n".toList
        = Except.ok (Rustc.ParseResult.Success
            ⟨1, 81, 0, Rustc.Channel.Stable⟩) :=
  ⟨rfl, rfl, rfl⟩

/-- Claim C5 (amended): structural deviations inside the tokens the parser
examines yield `Unrecognized` — a non-`"rustc"` first token, a missing
version token, a missing minor component, a non-numeric minor or patch, an
unrecognized channel keyword, a token after `nightly` not starting with
`'('`, a date token not ending in `')'`, or a non-date word after the hash —
but dotted components beyond the third and whitespace-separated tokens
beyond those consumed are ignored rather than rejected, so a line such as
`"rustc 1.81.0 (eeb90cda1 2024-09-04)"` parses successfully. -/
theorem claim_c5_unrecognized_on_examined_tokens :
    Rustc.parse "garbage\n".toList = Except.ok Rustc.ParseResult.Unrecognized
    ∧ Rustc.parse "rustc\n".toList = Except.ok Rustc.ParseResult.Unrecognized
    ∧ Rustc.parse "rustc 1\n".toList
        = Except.ok Rustc.ParseResult.Unrecognized
    ∧ Rustc.parse "rustc 1.x\n".toList
        = Except.ok Rustc.ParseResult.Unrecognized
    ∧ Rustc.parse "rustc 1.2.x\n".toList
        = Except.ok Rustc.ParseResult.Unrecognized
    ∧ Rustc.parse "rustc 1.2.3-alpha\n".toList
        = Except.ok Rustc.ParseResult.Unrecognized
    ∧ Rustc.parse "rustc 1.2.3-nightly x\n".toList
        = Except.ok Rustc.ParseResult.Unrecognized
    ∧ Rustc.parse "rustc 1.2.3-nightly (abc 2024-07-28\n".toList
        = Except.ok Rustc.ParseResult.Unrecognized
    ∧ Rustc.parse "rustc 1.2.3-nightly (abc) extra\n".toList
        = Except.ok Rustc.ParseResult.Unrecognized
    ∧ Rustc.parse "rustc 1.81.0 (eeb90cda1 2024-09-04)\n".toList
        = Except.ok (Rustc.ParseResult.Success
            ⟨1, 81, 0, Rustc.Channel.Stable⟩) :=
  ⟨rfl, rfl, rfl, rfl, rfl, rfl, rfl, rfl, rfl, rfl⟩

/-- Claim C5 counterexample: structural deviations outside the examined
tokens do not yield `Unrecognized`: a fourth dotted component, an extra
trailing word, and an unbalanced parenthesis in an unconsumed token all
still produce `Success`. -/
theorem claim_c5_counterexample :
    Rustc.parse "rustc 1.2.3.4\n".toList
        = Except.ok (Rustc.ParseResult.Success
            ⟨1, 2, 3, Rustc.Channel.Stable⟩)
    ∧ Rustc.parse "rustc 1.0.0 garbage\n".toList
        = Except.ok (Rustc.ParseResult.Success
            ⟨1, 0, 0, Rustc.Channel.Stable⟩)
    ∧ Rustc.parse "rustc 1.0.0 (unbalanced\n".toList
        = Except.ok (Rustc.ParseResult.Success
            ⟨1, 0, 0, Rustc.Channel.Stable⟩) :=
  ⟨rfl, rfl, rfl⟩

theorem digit_not_ws (c : Char) (h : isDigitChar c = true) :
    isRustWhitespace c = false := by
  simp only [isDigitChar, Bool.and_eq_true, decide_eq_true_eq] at h
  simp only [isRustWhitespace, Bool.or_eq_false_iff, decide_eq_false_iff_not]
  omega

theorem natStr_last_digit (n : Nat) :
    ∃ c, (natStr n).getLast? = some c ∧ isDigitChar c = true := by
  rcases hx : (natStr n).getLast? with _ | c
  · exact absurd (List.getLast?_eq_none_iff.mp hx) (natStr_ne_nil n)
  · refine ⟨c, rfl, natStr_all_digit n c (List.mem_of_mem_getLast? ?_)⟩
    rw [hx]
    rfl

theorem getLast?_cons_of_ne_nil (a : Char) (l : List Char) (h : l ≠ []) :
    (a :: l).getLast? = l.getLast? := by
  rcases l with _ | ⟨b, t⟩
  · exact absurd rfl h
  · rfl

theorem rustLinesAux_no_nl (l : List Char) (h : ('\n' : Char) ∉ l) :
    ∀ cur, rustLinesAux cur (l ++ ['\n']) = [stripCRrev (l.reverse ++ cur)] := by
  induction l with
  | nil => intro cur; simp [rustLinesAux]
  | cons c l ih =>
    intro cur
    simp only [List.mem_cons, not_or] at h
    have hcne : ¬(c = '\n') := fun hc => h.1 hc.symm
    simp only [List.cons_append, rustLinesAux, if_neg hcne]
    rw [show (c :: l).reverse ++ cur = l.reverse ++ (c :: cur) by simp]
    exact ih h.2 (c :: cur)

theorem stripCRrev_reverse (l : List Char) (h : l.getLast? ≠ some '\r') :
    stripCRrev l.reverse = l := by
  rcases hrev : l.reverse with _ | ⟨c, rest⟩
  · rw [List.reverse_eq_nil_iff.mp hrev]
    rfl
  · have hc : c ≠ '\r' := by
      intro hc
      apply h
      rw [← List.head?_reverse, hrev, hc]
      rfl
    unfold stripCRrev
    split
    · rename_i cur2 heq
      injection heq with heq1 heq2
      exact absurd heq1 hc
    · rw [← hrev, List.reverse_reverse]

theorem rustLines_single_line (content : List Char)
    (h1 : ('\n' : Char) ∉ content) (h2 : content.getLast? ≠ some '\r') :
    rustLines (content ++ ['\n']) = [content] := by
  show rustLinesAux [] (content ++ ['\n']) = [content]
  rw [rustLinesAux_no_nl content h1 [], List.append_nil,
    stripCRrev_reverse content h2]

theorem rustTrim_eq_self (s : List Char)
    (h1 : ∀ c, s.head? = some c → isRustWhitespace c = false)
    (h2 : ∀ c, s.getLast? = some c → isRustWhitespace c = false) :
    rustTrim s = s := by
  unfold rustTrim
  have e1 : s.dropWhile isRustWhitespace = s := by
    rcases s with _ | ⟨c, rest⟩
    · rfl
    · rw [List.dropWhile_cons, if_neg (by rw [h1 c rfl]; simp)]
  rw [e1]
  rcases hrev : s.reverse with _ | ⟨c, rest⟩
  · have hs := List.reverse_eq_nil_iff.mp hrev
    simp [hs]
  · have hc : isRustWhitespace c = false := by
      apply h2
      rw [← List.head?_reverse, hrev]
      rfl
    rw [List.dropWhile_cons, if_neg (by rw [hc]; simp), ← hrev,
      List.reverse_reverse]

theorem sliceDropLast_of_ne_nil (s : List Char) (h : s ≠ []) :
    Rustc.sliceDropLast s = Except.ok s.dropLast := by
  rcases s with _ | ⟨c, rest⟩
  · exact absurd rfl h
  · rfl

/-- Evaluation of `Rustc.parse` on a single `"rustc ..."` line ending in a
newline: it proceeds to `parse_words` on the remaining words. -/
theorem rustcParse_rustc_line (rest : List Char) (hne : rest ≠ [])
    (hnl : ('\n' : Char) ∉ rest)
    (hlast : ∀ c, rest.getLast? = some c →
      isRustWhitespace c = false ∧ c ≠ '\r') :
    Rustc.parse ("rustc ".toList ++ rest ++ ['\n'])
      = match Rustc.parse_words (splitChar ' ' rest) with
        | Except.error _ => Except.error ()
        | Except.ok (some v) => Except.ok (Rustc.ParseResult.Success v)
        | Except.ok none => Except.ok Rustc.ParseResult.Unrecognized := by
  obtain ⟨lc, hlc⟩ : ∃ c, rest.getLast? = some c := by
    rcases hx : rest.getLast? with _ | c
    · exact absurd (List.getLast?_eq_none_iff.mp hx) hne
    · exact ⟨c, rfl⟩
  have hcl : ("rustc ".toList ++ rest).getLast? = some lc := by
    rw [List.getLast?_append_of_ne_nil _ hne, hlc]
  have hln : rustLines (("rustc ".toList ++ rest) ++ ['\n'])
      = ["rustc ".toList ++ rest] := by
    apply rustLines_single_line
    · exact List.not_mem_append (by decide) hnl
    · rw [hcl]
      exact fun hx => (hlast lc hlc).2 (Option.some.inj hx)
  have htrim : rustTrim ("rustc ".toList ++ rest)
      = "rustc ".toList ++ rest := by
    apply rustTrim_eq_self
    · intro c hc
      have hr : c = 'r' := (Option.some.inj hc).symm
      rw [hr]
      rfl
    · intro c hc
      rw [hcl] at hc
      rw [← Option.some.inj hc]
      exact (hlast lc hlc).1
  have hsplit : splitChar ' ' ("rustc ".toList ++ rest)
      = "rustc".toList :: splitChar ' ' rest :=
    splitChar_append_sep ' ' "rustc".toList rest (by decide)
  show Rustc.parse (("rustc ".toList ++ rest) ++ ['\n']) = _
  simp only [Rustc.parse]
  rw [hln]
  simp only [List.getLast?_singleton, Option.getD_some]
  rw [htrim, hsplit]
  simp
  rcases Rustc.parse_words (splitChar ' ' rest) with e | r
  · cases e
    rfl
  · rcases r with _ | v <;> rfl

theorem not_mem_cons_pair {a x : Char} {l : List Char} (h1 : a ≠ x)
    (h2 : a ∉ l) : a ∉ x :: l := by
  simp only [List.mem_cons, not_or]
  exact ⟨h1, h2⟩

theorem ver_not_mem (mj mn pt : Nat) (x : Char) (hx : isDigitChar x = false)
    (hd : x ≠ '.') :
    x ∉ (natStr mj ++ '.' :: (natStr mn ++ '.' :: natStr pt)) := by
  simp only [List.mem_append, List.mem_cons, not_or]
  exact ⟨not_mem_natStr _ _ hx, hd, not_mem_natStr _ _ hx, hd,
    not_mem_natStr _ _ hx⟩

theorem ver2_not_mem (mj mn : Nat) (x : Char) (hx : isDigitChar x = false)
    (hd : x ≠ '.') : x ∉ (natStr mj ++ '.' :: natStr mn) := by
  simp only [List.mem_append, List.mem_cons, not_or]
  exact ⟨not_mem_natStr _ _ hx, hd, not_mem_natStr _ _ hx⟩

theorem dateTok_not_mem (y mo dy : Nat) (x : Char)
    (hx : isDigitChar x = false) (h1 : x ≠ '-') (h2 : x ≠ ')') :
    x ∉ (natStr y ++ '-' :: (natStr mo ++ '-' :: (natStr dy ++ [')']))) := by
  simp only [List.mem_append, List.mem_cons, not_or]
  exact ⟨not_mem_natStr _ _ hx, h1, not_mem_natStr _ _ hx, h1,
    not_mem_natStr _ _ hx, by simp [h2]⟩

theorem ver_getLast (mj mn pt : Nat) :
    (natStr mj ++ '.' :: (natStr mn ++ '.' :: natStr pt)).getLast?
      = (natStr pt).getLast? := by
  rw [List.getLast?_append_of_ne_nil _ (by simp),
    getLast?_cons_of_ne_nil _ _ (by simp),
    List.getLast?_append_of_ne_nil _ (by simp),
    getLast?_cons_of_ne_nil _ _ (natStr_ne_nil pt)]

theorem ver2_getLast (mj mn : Nat) :
    (natStr mj ++ '.' :: natStr mn).getLast? = (natStr mn).getLast? := by
  rw [List.getLast?_append_of_ne_nil _ (by simp),
    getLast?_cons_of_ne_nil _ _ (natStr_ne_nil mn)]

theorem dateTok_getLast (y mo dy : Nat) :
    (natStr y ++ '-' :: (natStr mo ++ '-' :: (natStr dy ++ [')']))).getLast?
      = some ')' := by
  rw [List.getLast?_append_of_ne_nil _ (by simp),
    getLast?_cons_of_ne_nil _ _ (by simp),
    List.getLast?_append_of_ne_nil _ (by simp),
    getLast?_cons_of_ne_nil _ _ (by simp [natStr_ne_nil]),
    List.getLast?_append_of_ne_nil _ (by simp)]
  rfl

theorem last_cond_of_digit (l : List Char)
    (hl : ∃ c, l.getLast? = some c ∧ isDigitChar c = true) :
    ∀ c, l.getLast? = some c → isRustWhitespace c = false ∧ c ≠ '\r' := by
  intro c hc
  obtain ⟨d, hd, hdd⟩ := hl
  rw [hd] at hc
  have he : d = c := Option.some.inj hc
  subst he
  exact ⟨digit_not_ws d hdd, digit_ne d '\r' hdd rfl⟩

theorem last_cond_of_eq (l : List Char) (x : Char)
    (hl : l.getLast? = some x) (h1 : isRustWhitespace x = false)
    (h2 : x ≠ '\r') :
    ∀ c, l.getLast? = some c → isRustWhitespace c = false ∧ c ≠ '\r' := by
  intro c hc
  rw [hl] at hc
  have he : x = c := Option.some.inj hc
  subst he
  exact ⟨h1, h2⟩

/-- Claim C3: well-formed version lines parse to `Success` with the claimed
components: `MAJOR.MINOR.PATCH` (or `MAJOR.MINOR`, patch defaulting to 0)
followed by an optional channel — absent giving `Stable`, `-dev` giving
`Dev`, a `beta`-prefixed token giving `Beta`, `-nightly` with a
parenthesized hash and parenthesized date giving `Nightly(date)`, and
`-nightly` with only a `')'`-terminated hash giving `Dev` — including the
three concrete inputs named in the specification. -/
theorem claim_c3_wellformed_lines :
    ∀ mj mn pt y mo dy : Nat,
      mj < 65536 → mn < 65536 → pt < 65536 →
      y < 65536 → mo < 256 → dy < 256 →
      Rustc.parse ("rustc ".toList
          ++ (natStr mj ++ '.' :: (natStr mn ++ '.' :: natStr pt)) ++ ['\n'])
        = Except.ok (Rustc.ParseResult.Success
            ⟨mj, mn, pt, Rustc.Channel.Stable⟩)
      ∧ Rustc.parse ("rustc ".toList ++ (natStr mj ++ '.' :: natStr mn)
          ++ ['\n'])
        = Except.ok (Rustc.ParseResult.Success
            ⟨mj, mn, 0, Rustc.Channel.Stable⟩)
      ∧ Rustc.parse ("rustc ".toList
          ++ ((natStr mj ++ '.' :: (natStr mn ++ '.' :: natStr pt))
              ++ "-dev".toList) ++ ['\n'])
        = Except.ok (Rustc.ParseResult.Success
            ⟨mj, mn, pt, Rustc.Channel.Dev⟩)
      ∧ Rustc.parse ("rustc ".toList
          ++ ((natStr mj ++ '.' :: (natStr mn ++ '.' :: natStr pt))
              ++ "-beta.2".toList) ++ ['\n'])
        = Except.ok (Rustc.ParseResult.Success
            ⟨mj, mn, pt, Rustc.Channel.Beta⟩)
      ∧ Rustc.parse ("rustc ".toList
          ++ (((natStr mj ++ '.' :: (natStr mn ++ '.' :: natStr pt))
                ++ "-nightly".toList)
              ++ ' ' :: ("(64e0f2462".toList
                  ++ ' ' :: (natStr y ++ '-' :: (natStr mo
                      ++ '-' :: (natStr dy ++ [')'])))))
          ++ ['\n'])
        = Except.ok (Rustc.ParseResult.Success
            ⟨mj, mn, pt, Rustc.Channel.Nightly ⟨y, mo, dy⟩⟩)
      ∧ Rustc.parse ("rustc ".toList
          ++ (((natStr mj ++ '.' :: (natStr mn ++ '.' :: natStr pt))
                ++ "-nightly".toList)
              ++ ' ' :: "(64e0f2462)".toList) ++ ['\n'])
        = Except.ok (Rustc.ParseResult.Success
            ⟨mj, mn, pt, Rustc.Channel.Dev⟩)
      ∧ Rustc.parse "rustc 1.60.0-beta.2\n".toList
        = Except.ok (Rustc.ParseResult.Success
            ⟨1, 60, 0, Rustc.Channel.Beta⟩)
      ∧ Rustc.parse "rustc 1.81.0-nightly (64e0f2462 2024-07-28)\n".toList
        = Except.ok (Rustc.ParseResult.Success
            ⟨1, 81, 0, Rustc.Channel.Nightly ⟨2024, 7, 28⟩⟩)
      ∧ Rustc.parse "rustc 1.81.0-nightly (64e0f2462)\n".toList
        = Except.ok (Rustc.ParseResult.Success
            ⟨1, 81, 0, Rustc.Channel.Dev⟩) := by
  intro mj mn pt y mo dy hmj hmn hpt hy hmo hdy
  have h1 : parseU16 (natStr mj) = some mj := parseUInt_natStr 65536 mj hmj
  have h2 : parseU16 (natStr mn) = some mn := parseUInt_natStr 65536 mn hmn
  have h3 : parseU16 (natStr pt) = some pt := parseUInt_natStr 65536 pt hpt
  have hy1 : parseU16 (natStr y) = some y := parseUInt_natStr 65536 y hy
  have hmo1 : parseU8 (natStr mo) = some mo := parseUInt_natStr 256 mo hmo
  have hdy1 : parseU8 (natStr dy) = some dy := parseUInt_natStr 256 dy hdy
  have hverlast : ∀ c : Char,
      List.getLast? (natStr mj ++ '.' :: (natStr mn ++ '.' :: natStr pt))
        = some c →
      isRustWhitespace c = false ∧ c ≠ '\r' := by
    apply last_cond_of_digit
    obtain ⟨d, hd, hdd⟩ := natStr_last_digit pt
    exact ⟨d, by rw [ver_getLast mj mn pt, hd], hdd⟩
  refine ⟨?_, ?_, ?_, ?_, ?_, ?_, rfl, rfl, rfl⟩
  · rw [rustcParse_rustc_line _ (by simp [natStr_ne_nil])
      (ver_not_mem mj mn pt '\n' rfl (by decide)) hverlast]
    rw [splitChar_of_not_mem ' ' _ (ver_not_mem mj mn pt ' ' rfl (by decide))]
    simp only [Rustc.parse_words,
      splitChar_of_not_mem '-' _ (ver_not_mem mj mn pt '-' rfl (by decide)),
      splitChar_append_sep '.' _ _ (not_mem_natStr mj '.' rfl),
      splitChar_append_sep '.' _ _ (not_mem_natStr mn '.' rfl),
      splitChar_of_not_mem '.' _ (not_mem_natStr pt '.' rfl),
      h1, h2, h3, List.headD_cons, List.head?_nil]
  · rw [rustcParse_rustc_line _ (by simp [natStr_ne_nil])
      (ver2_not_mem mj mn '\n' rfl (by decide))
      (last_cond_of_digit _ (by
        obtain ⟨d, hd, hdd⟩ := natStr_last_digit mn
        exact ⟨d, by rw [ver2_getLast mj mn, hd], hdd⟩))]
    rw [splitChar_of_not_mem ' ' _ (ver2_not_mem mj mn ' ' rfl (by decide))]
    simp only [Rustc.parse_words,
      splitChar_of_not_mem '-' _ (ver2_not_mem mj mn '-' rfl (by decide)),
      splitChar_append_sep '.' _ _ (not_mem_natStr mj '.' rfl),
      splitChar_of_not_mem '.' _ (not_mem_natStr mn '.' rfl),
      h1, h2, List.headD_nil, List.head?_nil]
    rfl
  · rw [rustcParse_rustc_line _ (by simp)
      (List.not_mem_append (ver_not_mem mj mn pt '\n' rfl (by decide))
        (by decide))
      (last_cond_of_eq _ 'v'
        (by rw [List.getLast?_append_of_ne_nil _ (by decide)]; rfl)
        rfl (by decide))]
    rw [splitChar_of_not_mem ' ' _
      (List.not_mem_append (ver_not_mem mj mn pt ' ' rfl (by decide))
        (by decide))]
    have echan : ("-dev".toList : List Char) = '-' :: "dev".toList := rfl
    rw [echan]
    simp only [Rustc.parse_words,
      splitChar_append_sep '-' _ _ (ver_not_mem mj mn pt '-' rfl (by decide)),
      splitChar_append_sep '.' _ _ (not_mem_natStr mj '.' rfl),
      splitChar_append_sep '.' _ _ (not_mem_natStr mn '.' rfl),
      splitChar_of_not_mem '.' _ (not_mem_natStr pt '.' rfl),
      h1, h2, h3, List.headD_cons, List.head?_cons]
    rfl
  · rw [rustcParse_rustc_line _ (by simp)
      (List.not_mem_append (ver_not_mem mj mn pt '\n' rfl (by decide))
        (by decide))
      (last_cond_of_eq _ '2'
        (by rw [List.getLast?_append_of_ne_nil _ (by decide)]; rfl)
        rfl (by decide))]
    rw [splitChar_of_not_mem ' ' _
      (List.not_mem_append (ver_not_mem mj mn pt ' ' rfl (by decide))
        (by decide))]
    have echan : ("-beta.2".toList : List Char) = '-' :: "beta.2".toList := rfl
    rw [echan]
    simp only [Rustc.parse_words,
      splitChar_append_sep '-' _ _ (ver_not_mem mj mn pt '-' rfl (by decide)),
      splitChar_append_sep '.' _ _ (not_mem_natStr mj '.' rfl),
      splitChar_append_sep '.' _ _ (not_mem_natStr mn '.' rfl),
      splitChar_of_not_mem '.' _ (not_mem_natStr pt '.' rfl),
      h1, h2, h3, List.headD_cons, List.head?_cons]
    rfl
  · have hdl : (natStr y ++ '-' :: (natStr mo
        ++ '-' :: (natStr dy ++ [')']))).getLast? = some ')' :=
      dateTok_getLast y mo dy
    have hshape : (natStr y ++ '-' :: (natStr mo
        ++ '-' :: (natStr dy ++ [')'])))
        = (natStr y ++ '-' :: (natStr mo ++ '-' :: natStr dy)) ++ [')'] := by
      simp
    have hnt : Rustc.nightlyTail ["(64e0f2462".toList,
        natStr y ++ '-' :: (natStr mo ++ '-' :: (natStr dy ++ [')']))]
        = Except.ok (some (Rustc.Channel.Nightly ⟨y, mo, dy⟩)) := by
      simp only [Rustc.nightlyTail]
      rw [if_pos
          (by decide : List.isPrefixOf ['('] "(64e0f2462".toList = true),
        if_pos hdl, hshape, sliceDropLast_of_ne_nil _ (by simp),
        List.dropLast_concat]
      simp only [splitChar_append_sep '-' _ _ (not_mem_natStr y '-' rfl),
        splitChar_append_sep '-' _ _ (not_mem_natStr mo '-' rfl),
        splitChar_of_not_mem '-' _ (not_mem_natStr dy '-' rfl),
        Rustc.parseDateParts, hy1, hmo1, hdy1]
    rw [rustcParse_rustc_line _ (by simp)
      (List.not_mem_append
        (List.not_mem_append (ver_not_mem mj mn pt '\n' rfl (by decide))
          (by decide))
        (not_mem_cons_pair (by decide)
          (List.not_mem_append (by decide)
            (not_mem_cons_pair (by decide)
              (dateTok_not_mem y mo dy '\n' rfl (by decide) (by decide))))))
      (by
        apply last_cond_of_eq _ ')'
        · rw [List.getLast?_append_of_ne_nil _ (by simp),
            getLast?_cons_of_ne_nil _ _ (by simp),
            List.getLast?_append_of_ne_nil _ (by simp),
            getLast?_cons_of_ne_nil _ _ (by simp [natStr_ne_nil]),
            hdl]
        · rfl
        · decide)]
    rw [splitChar_append_sep ' ' _ _
        (List.not_mem_append (ver_not_mem mj mn pt ' ' rfl (by decide))
          (by decide)),
      splitChar_append_sep ' ' _ _ (by decide),
      splitChar_of_not_mem ' ' _
        (dateTok_not_mem y mo dy ' ' rfl (by decide) (by decide))]
    have echan : ("-nightly".toList : List Char)
        = '-' :: "nightly".toList := rfl
    rw [echan]
    simp only [Rustc.parse_words,
      splitChar_append_sep '-' _ _ (ver_not_mem mj mn pt '-' rfl (by decide)),
      splitChar_append_sep '.' _ _ (not_mem_natStr mj '.' rfl),
      splitChar_append_sep '.' _ _ (not_mem_natStr mn '.' rfl),
      splitChar_of_not_mem '.' _ (not_mem_natStr pt '.' rfl),
      h1, h2, h3, List.headD_cons, List.head?_cons, hnt]
    rfl
  · have hnt2 : Rustc.nightlyTail ["(64e0f2462)".toList]
        = Except.ok (some Rustc.Channel.Dev) := rfl
    rw [rustcParse_rustc_line _ (by simp)
      (List.not_mem_append
        (List.not_mem_append (ver_not_mem mj mn pt '\n' rfl (by decide))
          (by decide))
        (by decide))
      (last_cond_of_eq _ ')'
        (by
          rw [List.getLast?_append_of_ne_nil _ (by simp),
            getLast?_cons_of_ne_nil _ _ (by decide)]
          rfl)
        rfl (by decide))]
    rw [splitChar_append_sep ' ' _ _
        (List.not_mem_append (ver_not_mem mj mn pt ' ' rfl (by decide))
          (by decide)),
      splitChar_of_not_mem ' ' _ (by decide)]
    have echan : ("-nightly".toList : List Char)
        = '-' :: "nightly".toList := rfl
    rw [echan]
    simp only [Rustc.parse_words,
      splitChar_append_sep '-' _ _ (ver_not_mem mj mn pt '-' rfl (by decide)),
      splitChar_append_sep '.' _ _ (not_mem_natStr mj '.' rfl),
      splitChar_append_sep '.' _ _ (not_mem_natStr mn '.' rfl),
      splitChar_of_not_mem '.' _ (not_mem_natStr pt '.' rfl),
      h1, h2, h3, List.headD_cons, List.head?_cons, hnt2]
    rfl

/-- Witness for claim C3: the universal family instantiated at
`1.81.0-nightly (64e0f2462 2024-07-28)`. -/
theorem claim_c3_wellformed_lines_witness :
    (1 : Nat) < 65536 ∧ (81 : Nat) < 65536 ∧ (0 : Nat) < 65536 ∧
    (2024 : Nat) < 65536 ∧ (7 : Nat) < 256 ∧ (28 : Nat) < 256 ∧
    Rustc.parse ("rustc ".toList
        ++ (((natStr 1 ++ '.' :: (natStr 81 ++ '.' :: natStr 0))
              ++ "-nightly".toList)
            ++ ' ' :: ("(64e0f2462".toList
                ++ ' ' :: (natStr 2024 ++ '-' :: (natStr 7
                    ++ '-' :: (natStr 28 ++ [')'])))))
        ++ ['\n'])
      = Except.ok (Rustc.ParseResult.Success
          ⟨1, 81, 0, Rustc.Channel.Nightly ⟨2024, 7, 28⟩⟩) :=
  ⟨by decide, by decide, by decide, by decide, by decide, by decide,
    (claim_c3_wellformed_lines 1 81 0 2024 7 28 (by decide) (by decide)
      (by decide) (by decide) (by decide) (by decide)).2.2.2.2.1⟩
